import Mathlib

/-!
Verification of the pazaryeri client state stores (favorites, theme) and
their persistence codec, as a shallow embedding of the TypeScript source.

Sources embedded:
- `src/stores/useFavoritesStore.ts` (favorites map, mutators, selectors,
  and its custom zustand `storage` adapter `getItem`/`setItem`);
- `src/stores/useThemeStore.ts` (`getSystemTheme`, `getEffectiveTheme`,
  `toggleTheme`);
- `src/services/storage/local-storage.service.ts` (`safeJsonParse` /
  `getJson`, for contrast with the favorites adapter);
- `src/types/product.ts`, `src/types/category.ts` (the data model).

JavaScript numbers are modelled as `Int`: no operation verified here
computes with a numeric field, it only stores and reloads them.
-/

set_option autoImplicit false

namespace Pazaryeri

/-! ## Data model (src/types/category.ts, src/types/product.ts) -/

/-- Type `Category` from src/types/category.ts. Optional fields become `Option`. -/
structure Category where
  id : String
  slug : String
  name : String
  description : Option String
  parentId : Option String
  image : Option String
  productCount : Int
deriving DecidableEq, Repr

/-- Type `ProductImage` from src/types/product.ts. -/
structure ProductImage where
  id : String
  url : String
  alt : String
  width : Int
  height : Int
deriving DecidableEq, Repr

/-- Type `ProductAttribute` from src/types/product.ts. -/
structure ProductAttribute where
  name : String
  value : String
deriving DecidableEq, Repr

/-- Type `Product` from src/types/product.ts. -/
structure Product where
  id : String
  slug : String
  name : String
  description : String
  price : Int
  originalPrice : Option Int
  currency : String
  images : List ProductImage
  category : Category
  brand : String
  rating : Int
  reviewCount : Int
  inStock : Bool
  attributes : List ProductAttribute
  createdAt : String
  updatedAt : String
deriving DecidableEq, Repr

/-! ## JavaScript `Map` model

A JS `Map` with string keys is an insertion-ordered collection of
key-value entries with pairwise distinct keys.  We model it as an
association list; `set` on an existing key replaces the value in place
(keeping the entry's position), `set` on a fresh key appends, `delete`
removes the entry, and `new Map(entries)` folds `set` over the entries. -/

namespace JsMap

variable {α : Type}

/-- Model of `Map.prototype.has`. -/
def has (m : List (String × α)) (k : String) : Bool :=
  m.any fun e => e.1 == k

/-- Model of `Map.prototype.set`: replace in place if the key is present, else append. -/
def set (m : List (String × α)) (k : String) (v : α) : List (String × α) :=
  if has m k then m.map fun e => if e.1 == k then (k, v) else e
  else m ++ [(k, v)]

/-- Model of `Map.prototype.delete`. -/
def delete (m : List (String × α)) (k : String) : List (String × α) :=
  m.filter fun e => !(e.1 == k)

/-- Model of `Map.prototype.get`. -/
def get? (m : List (String × α)) (k : String) : Option α :=
  (m.find? fun e => e.1 == k).map Prod.snd

/-- Model of `Map.prototype.size`. -/
def size (m : List (String × α)) : Nat :=
  m.length

/-- Model of `Array.from(map.values())`. -/
def values (m : List (String × α)) : List α :=
  m.map Prod.snd

/-- Model of `new Map(entries)`: insert the entries left to right. -/
def ofEntries (l : List (String × α)) : List (String × α) :=
  l.foldl (fun acc e => set acc e.1 e.2) []

theorem has_iff {m : List (String × α)} {k : String} :
    has m k = true ↔ ∃ e ∈ m, e.1 = k := by
  simp [has, List.any_eq_true]

theorem has_eq_false_iff {m : List (String × α)} {k : String} :
    has m k = false ↔ ∀ e ∈ m, e.1 ≠ k := by
  rw [← Bool.not_eq_true, has_iff]
  push_neg
  rfl

theorem has_set_self (m : List (String × α)) (k : String) (v : α) :
    has (set m k v) k = true := by
  by_cases h : has m k = true
  · rw [set, if_pos h]
    rcases has_iff.mp h with ⟨e, he, hek⟩
    refine has_iff.mpr ⟨(k, v), List.mem_map.mpr ⟨e, he, ?_⟩, rfl⟩
    simp [hek]
  · rw [set, if_neg (by simp_all)]
    exact has_iff.mpr ⟨(k, v), by simp, rfl⟩

theorem length_set_present {m : List (String × α)} {k : String} (v : α)
    (h : has m k = true) : (set m k v).length = m.length := by
  simp [set, h]

theorem set_absent {m : List (String × α)} {k : String} (v : α)
    (h : has m k = false) : set m k v = m ++ [(k, v)] := by
  rw [set, if_neg (by simp [h])]

theorem length_set_absent {m : List (String × α)} {k : String} (v : α)
    (h : has m k = false) : (set m k v).length = m.length + 1 := by
  simp [set_absent v h]

theorem has_delete_self (m : List (String × α)) (k : String) :
    has (delete m k) k = false := by
  rw [Bool.eq_false_iff]
  intro h
  rcases has_iff.mp h with ⟨e, he, hek⟩
  rcases List.mem_filter.mp he with ⟨-, hkeep⟩
  simp [hek] at hkeep

theorem delete_absent {m : List (String × α)} {k : String}
    (h : has m k = false) : delete m k = m := by
  rw [delete, List.filter_eq_self]
  intro e he
  simp [has_eq_false_iff.mp h e he]

theorem length_delete_present {m : List (String × α)} {k : String}
    (hnd : (m.map Prod.fst).Nodup) (h : has m k = true) :
    (delete m k).length + 1 = m.length := by
  induction m with
  | nil => simp [has] at h
  | cons e t ih =>
    rw [List.map_cons, List.nodup_cons] at hnd
    by_cases hek : e.1 = k
    · have ht : has t k = false := by
        rw [has_eq_false_iff]
        intro f hf hfk
        refine hnd.1 ?_
        rw [hek, ← hfk]
        exact List.mem_map.mpr ⟨f, hf, rfl⟩
      have hd : delete t k = t := delete_absent ht
      simp only [delete] at hd
      simp only [delete, List.filter_cons]
      rw [if_neg (by simp [hek]), hd]
      simp
    · have hth : has t k = true := by
        rcases has_iff.mp h with ⟨f, hf, hfk⟩
        rcases List.mem_cons.mp hf with rfl | hft
        · exact absurd hfk hek
        · exact has_iff.mpr ⟨f, hft, hfk⟩
      have hrec := ih hnd.2 hth
      simp only [delete] at hrec
      simp only [delete, List.filter_cons]
      rw [if_pos (by simp [hek])]
      simp only [List.length_cons]
      omega

theorem foldl_set_eq_append (l : List (String × α)) :
    ∀ acc : List (String × α), ((acc ++ l).map Prod.fst).Nodup →
      l.foldl (fun a e => set a e.1 e.2) acc = acc ++ l := by
  induction l with
  | nil => intro acc _; simp
  | cons e t ih =>
    intro acc h
    have hacc : has acc e.1 = false := by
      rw [has_eq_false_iff]
      intro f hf hfe
      rw [List.map_append, List.nodup_append] at h
      exact h.2.2 (List.mem_map.mpr ⟨f, hf, rfl⟩) (by simp [hfe])
    rw [List.foldl_cons, set_absent _ hacc]
    have h2 : (((acc ++ [e]) ++ t).map Prod.fst).Nodup := by
      simpa using h
    rw [ih (acc ++ [e]) h2]
    simp

/-- Building `new Map(entries)` reproduces the entries when their keys are distinct. -/
theorem ofEntries_eq_self {l : List (String × α)} (h : (l.map Prod.fst).Nodup) :
    ofEntries l = l := by
  have := foldl_set_eq_append l [] (by simpa using h)
  simpa [ofEntries] using this

theorem find?_eq_none_of_has {m : List (String × α)} {k : String}
    (h : has m k = false) : m.find? (fun e => e.1 == k) = none := by
  rw [List.find?_eq_none]
  intro e he
  simp [has_eq_false_iff.mp h e he]

theorem get?_set_self (m : List (String × α)) (k : String) (v : α) :
    get? (set m k v) k = some v := by
  by_cases h : has m k = true
  · rw [set, if_pos h]
    induction m with
    | nil => simp [has] at h
    | cons e t ih =>
      by_cases hek : e.1 = k
      · simp [get?, List.find?_cons, hek]
      · have hth : has t k = true := by
          rcases has_iff.mp h with ⟨f, hf, hfk⟩
          rcases List.mem_cons.mp hf with rfl | hft
          · exact absurd hfk hek
          · exact has_iff.mpr ⟨f, hft, hfk⟩
        simpa [get?, List.find?_cons, hek] using ih hth
  · have h' : has m k = false := by simpa using h
    rw [set, if_neg h, get?, List.find?_append, find?_eq_none_of_has h']
    simp [List.find?_cons]

end JsMap

/-! ## FavoritesStore core (src/stores/useFavoritesStore.ts)

The store state holds `favorites: Map<string, Product>`.  Each mutator
builds a fresh `Map` from the current one and returns it; in this pure
model that is `JsMap.set` / `JsMap.delete` on the association list
(object identity is modelled separately for the frame property). -/

structure FavoritesState where
  favorites : List (String × Product)
deriving DecidableEq, Repr

/-- The initial store state: `favorites: new Map()`. -/
def initialFavorites : FavoritesState := ⟨[]⟩

/-- Operation `addFavorite`: copy the map and `set(product.id, product)`. -/
def addFavorite (product : Product) (s : FavoritesState) : FavoritesState :=
  ⟨JsMap.set s.favorites product.id product⟩

/-- Operation `removeFavorite`: copy the map and `delete(productId)`. -/
def removeFavorite (productId : String) (s : FavoritesState) : FavoritesState :=
  ⟨JsMap.delete s.favorites productId⟩

/-- Query `isFavorite`: `favorites.has(productId)`. -/
def isFavorite (productId : String) (s : FavoritesState) : Bool :=
  JsMap.has s.favorites productId

/-- Operation `clearFavorites`: replace the map by `new Map()`. -/
def clearFavorites (_s : FavoritesState) : FavoritesState := ⟨[]⟩

/-- Selector `getFavoritesArray`: `Array.from(favorites.values())`. -/
def getFavoritesArray (s : FavoritesState) : List Product :=
  JsMap.values s.favorites

/-- Selector `getFavoritesCount`: `favorites.size`. -/
def getFavoritesCount (s : FavoritesState) : Nat :=
  JsMap.size s.favorites

/-- One user-level mutation of the favorites store. -/
inductive FavOp where
  | add (product : Product)
  | remove (productId : String)
deriving DecidableEq, Repr

def applyFavOp (s : FavoritesState) : FavOp → FavoritesState
  | .add p => addFavorite p s
  | .remove i => removeFavorite i s

/-- Run a sequence of add/remove operations from the initial (empty) state. -/
def runFavOps (ops : List FavOp) : FavoritesState :=
  ops.foldl applyFavOp initialFavorites

/-! ## Sample data for witnesses and counterexamples -/

def sampleCategory : Category :=
  ⟨"c1", "phones", "Phones", none, none, none, 10⟩

def sampleProduct : Product :=
  { id := "p1", slug := "phone", name := "Phone", description := "A phone",
    price := 100, originalPrice := none, currency := "TRY", images := [],
    category := sampleCategory, brand := "Acme", rating := 4,
    reviewCount := 12, inStock := true, attributes := [],
    createdAt := "2024-01-01T00:00:00Z", updatedAt := "2024-01-02T00:00:00Z" }

def sampleProduct2 : Product :=
  { sampleProduct with id := "p2", slug := "laptop", name := "Laptop" }

/-- A store state that already holds `sampleProduct` under its id. -/
def stateP1 : FavoritesState := ⟨[("p1", sampleProduct)]⟩

/-! ## Favorites store properties -/

/-- Every entry's key is the id of the product it stores; all reachable
states keep this shape because `addFavorite` keys entries by `product.id`. -/
def keyedById (s : FavoritesState) : Prop :=
  ∀ e ∈ s.favorites, e.1 = e.2.id

theorem keyedById_addFavorite {s : FavoritesState} (p : Product)
    (h : keyedById s) : keyedById (addFavorite p s) := by
  intro e he
  simp only [addFavorite, JsMap.set] at he
  split at he
  · rcases List.mem_map.mp he with ⟨f, hf, rfl⟩
    by_cases hfk : f.1 = p.id
    · simp [hfk]
    · simpa [hfk] using h f hf
  · rcases List.mem_append.mp he with hm | hm
    · exact h e hm
    · rcases List.mem_singleton.mp hm with rfl
      rfl

theorem keyedById_removeFavorite {s : FavoritesState} (i : String)
    (h : keyedById s) : keyedById (removeFavorite i s) := by
  intro e he
  simp only [removeFavorite, JsMap.delete] at he
  exact h e (List.mem_of_mem_filter he)

theorem runFavOps_keyedById (ops : List FavOp) : keyedById (runFavOps ops) := by
  suffices h : ∀ s, keyedById s → keyedById (ops.foldl applyFavOp s) by
    exact h initialFavorites (by intro e he; simp [initialFavorites] at he)
  induction ops with
  | nil => intro s hs; simpa using hs
  | cons op t ih =>
    intro s hs
    rw [List.foldl_cons]
    refine ih _ ?_
    cases op with
    | add p => exact keyedById_addFavorite p hs
    | remove i => exact keyedById_removeFavorite i hs

/-- C2: after `addFavorite p`, `isFavorite p.id` holds and the stored
snapshot is `p` (last-write-wins); the count grows by one exactly when
`p.id` was absent and is unchanged when it was present. -/
theorem addFavorite_spec (p : Product) (s : FavoritesState) :
    isFavorite p.id (addFavorite p s) = true ∧
    JsMap.get? (addFavorite p s).favorites p.id = some p ∧
    (isFavorite p.id s = false →
      getFavoritesCount (addFavorite p s) = getFavoritesCount s + 1) ∧
    (isFavorite p.id s = true →
      getFavoritesCount (addFavorite p s) = getFavoritesCount s) := by
  refine ⟨JsMap.has_set_self s.favorites p.id p,
          JsMap.get?_set_self s.favorites p.id p, ?_, ?_⟩
  · intro h
    exact JsMap.length_set_absent p h
  · intro h
    exact JsMap.length_set_present p h

/-- Witness for `addFavorite_spec` at `sampleProduct` over the empty state. -/
theorem addFavorite_spec_witness :
    isFavorite sampleProduct.id initialFavorites = false ∧
    getFavoritesCount (addFavorite sampleProduct initialFavorites) =
      getFavoritesCount initialFavorites + 1 :=
  ⟨by decide,
   (addFavorite_spec sampleProduct initialFavorites).2.2.1 (by decide)⟩

/-- C3: in every state reachable by a sequence of add/remove
operations, `getFavoritesCount` equals the length of `getFavoritesArray`,
and every product in that array is reported as a favorite. -/
theorem favorites_state_consistency (ops : List FavOp) :
    getFavoritesCount (runFavOps ops) = (getFavoritesArray (runFavOps ops)).length ∧
    ∀ p ∈ getFavoritesArray (runFavOps ops),
      isFavorite p.id (runFavOps ops) = true := by
  refine ⟨by simp [getFavoritesCount, getFavoritesArray, JsMap.size, JsMap.values], ?_⟩
  intro p hp
  simp only [getFavoritesArray, JsMap.values] at hp
  rcases List.mem_map.mp hp with ⟨e, he, rfl⟩
  have hk : e.1 = e.2.id := runFavOps_keyedById ops e he
  exact JsMap.has_iff.mpr ⟨e, he, hk⟩

/-- Witness for `favorites_state_consistency` on a two-operation run. -/
theorem favorites_state_consistency_witness :
    sampleProduct ∈ getFavoritesArray (runFavOps [.add sampleProduct, .add sampleProduct2]) ∧
    isFavorite sampleProduct.id (runFavOps [.add sampleProduct, .add sampleProduct2]) = true :=
  ⟨by decide,
   (favorites_state_consistency [.add sampleProduct, .add sampleProduct2]).2
     sampleProduct (by decide)⟩

/-- C5: removing an absent id leaves the state untouched (and the call
is a total function, so it cannot throw); removing a present id shrinks the
count by exactly one.  The key-distinctness hypothesis is the `Map`
invariant, which every JS `Map` satisfies by construction. -/
theorem removeFavorite_spec (productId : String) (s : FavoritesState)
    (hnd : (s.favorites.map Prod.fst).Nodup) :
    (isFavorite productId s = false → removeFavorite productId s = s) ∧
    (isFavorite productId s = true →
      getFavoritesCount (removeFavorite productId s) + 1 = getFavoritesCount s) := by
  constructor
  · intro h
    show FavoritesState.mk (JsMap.delete s.favorites productId) = s
    rw [JsMap.delete_absent h]
  · intro h
    exact JsMap.length_delete_present hnd h

/-- Witness for `removeFavorite_spec`: an absent id is a no-op on `stateP1`
and removing the present id `"p1"` drops the count from 1 to 0. -/
theorem removeFavorite_spec_witness :
    (stateP1.favorites.map Prod.fst).Nodup ∧
    removeFavorite "p9" stateP1 = stateP1 ∧
    getFavoritesCount (removeFavorite "p1" stateP1) + 1 = getFavoritesCount stateP1 :=
  ⟨by decide,
   (removeFavorite_spec "p9" stateP1 (by decide)).1 (by decide),
   (removeFavorite_spec "p1" stateP1 (by decide)).2 (by decide)⟩

/-- C6 counterexample: with `sampleProduct` already a favorite in
`stateP1`, `addFavorite` then `removeFavorite` does not restore the
original count (it ends at 0, the original was 1), so the round trip fails
for prior states that already contain the product. -/
theorem addRemove_roundtrip_counterexample :
    ¬ (getFavoritesCount (removeFavorite sampleProduct.id (addFavorite sampleProduct stateP1)) =
        getFavoritesCount stateP1) := by
  decide

/-- C6 amended: for every prior state in which `p.id` is *not* yet a
favorite, `addFavorite p` then `removeFavorite p.id` restores
`isFavorite p.id` to false and the count to its original value. -/
theorem addRemove_roundtrip (p : Product) (s : FavoritesState)
    (h : isFavorite p.id s = false) :
    isFavorite p.id (removeFavorite p.id (addFavorite p s)) = false ∧
    getFavoritesCount (removeFavorite p.id (addFavorite p s)) = getFavoritesCount s := by
  constructor
  · exact JsMap.has_delete_self (JsMap.set s.favorites p.id p) p.id
  · have h1 : JsMap.delete s.favorites p.id = s.favorites := JsMap.delete_absent h
    simp only [JsMap.delete] at h1
    show JsMap.size (JsMap.delete (JsMap.set s.favorites p.id p) p.id) = JsMap.size s.favorites
    rw [JsMap.set_absent _ h]
    simp only [JsMap.delete, JsMap.size, List.filter_append, h1]
    simp

/-- Witness for `addRemove_roundtrip` on the empty state. -/
theorem addRemove_roundtrip_witness :
    isFavorite sampleProduct.id initialFavorites = false ∧
    (isFavorite sampleProduct.id
        (removeFavorite sampleProduct.id (addFavorite sampleProduct initialFavorites)) = false ∧
     getFavoritesCount
        (removeFavorite sampleProduct.id (addFavorite sampleProduct initialFavorites)) =
       getFavoritesCount initialFavorites) :=
  ⟨by decide, addRemove_roundtrip sampleProduct initialFavorites (by decide)⟩

/-! ## ThemeStore (src/stores/useThemeStore.ts)

The browser environment is a parameter: whether `window` exists and what
`window.matchMedia('(prefers-color-scheme: dark)').matches` reports. -/

/-- Preference `Theme = 'light' | 'dark' | 'system'`. -/
inductive Theme where
  | light
  | dark
  | system
deriving DecidableEq, Repr

/-- The platform signals the theme code reads. -/
structure ThemeEnv where
  /-- Flag for `typeof window !== 'undefined'`. -/
  hasWindow : Bool
  /-- Result of `window.matchMedia('(prefers-color-scheme: dark)').matches`. -/
  prefersDark : Bool
deriving DecidableEq, Repr

/-- Function `getSystemTheme`: `'light'` when there is no `window`, otherwise the
media-query result. -/
def getSystemTheme (env : ThemeEnv) : Theme :=
  if !env.hasWindow then .light
  else if env.prefersDark then .dark else .light

/-- Function `getEffectiveTheme`: resolve `system` via `getSystemTheme`, return a
concrete preference unchanged. -/
def getEffectiveTheme (theme : Theme) (env : ThemeEnv) : Theme :=
  if theme = .system then getSystemTheme env else theme

/-- Function `toggleTheme`: the new stored preference (the store then sets
`theme := toggleTheme theme env`). -/
def toggleTheme (theme : Theme) (env : ThemeEnv) : Theme :=
  if getEffectiveTheme theme env = .dark then .light else .dark

/-- C7: `getEffectiveTheme` always returns `light` or `dark`, never
`system`; a concrete preference is returned unchanged; a `system`
preference is resolved via the platform signal; and without a `window`
the `system` preference resolves to the fixed fallback `light`. -/
theorem getEffectiveTheme_spec (theme : Theme) (env : ThemeEnv) :
    (getEffectiveTheme theme env = .light ∨ getEffectiveTheme theme env = .dark) ∧
    (theme ≠ .system → getEffectiveTheme theme env = theme) ∧
    (getEffectiveTheme .system env = getSystemTheme env) ∧
    (env.hasWindow = false → getEffectiveTheme .system env = .light) := by
  obtain ⟨hw, pd⟩ := env
  cases theme <;> cases hw <;> cases pd <;> decide

/-- Witness for `getEffectiveTheme_spec` in a window-less environment. -/
theorem getEffectiveTheme_spec_witness :
    (Theme.dark ≠ Theme.system) ∧
    (ThemeEnv.mk false false).hasWindow = false ∧
    getEffectiveTheme .dark (ThemeEnv.mk false false) = .dark ∧
    getEffectiveTheme .system (ThemeEnv.mk false false) = .light :=
  ⟨by decide, rfl,
   (getEffectiveTheme_spec .dark (ThemeEnv.mk false false)).2.1 (by decide),
   (getEffectiveTheme_spec .dark (ThemeEnv.mk false false)).2.2.2 rfl⟩

/-- C8: `toggleTheme` stores the concrete opposite of the current
effective theme and never stores `system`; from a concrete preference,
two toggles restore the original effective theme. -/
theorem toggleTheme_spec (theme : Theme) (env : ThemeEnv) :
    (toggleTheme theme env = .light ∨ toggleTheme theme env = .dark) ∧
    (getEffectiveTheme theme env = .light → toggleTheme theme env = .dark) ∧
    (getEffectiveTheme theme env = .dark → toggleTheme theme env = .light) ∧
    (theme ≠ .system →
      getEffectiveTheme (toggleTheme (toggleTheme theme env) env) env =
        getEffectiveTheme theme env) := by
  obtain ⟨hw, pd⟩ := env
  cases theme <;> cases hw <;> cases pd <;> decide

/-- Witness for `toggleTheme_spec` starting from the concrete `light`. -/
theorem toggleTheme_spec_witness :
    getEffectiveTheme .light (ThemeEnv.mk true true) = .light ∧
    (Theme.light ≠ Theme.system) ∧
    toggleTheme .light (ThemeEnv.mk true true) = .dark ∧
    getEffectiveTheme
        (toggleTheme (toggleTheme .light (ThemeEnv.mk true true)) (ThemeEnv.mk true true))
        (ThemeEnv.mk true true) =
      getEffectiveTheme .light (ThemeEnv.mk true true) :=
  ⟨rfl, by decide,
   (toggleTheme_spec .light (ThemeEnv.mk true true)).2.1 rfl,
   (toggleTheme_spec .light (ThemeEnv.mk true true)).2.2.2 (by decide)⟩

/-- C10: without a `window`, toggling while the preference is `system`
deterministically stores `dark`: the unresolvable `system` falls back to
the effective value `light` and the toggle stores its opposite. -/
theorem toggleTheme_system_no_window (env : ThemeEnv)
    (h : env.hasWindow = false) :
    getEffectiveTheme .system env = .light ∧ toggleTheme .system env = .dark := by
  obtain ⟨hw, pd⟩ := env
  subst h
  cases pd <;> decide

/-- Witness for `toggleTheme_system_no_window`. -/
theorem toggleTheme_system_no_window_witness :
    (ThemeEnv.mk false true).hasWindow = false ∧
    (getEffectiveTheme .system (ThemeEnv.mk false true) = .light ∧
     toggleTheme .system (ThemeEnv.mk false true) = .dark) :=
  ⟨rfl, toggleTheme_system_no_window (ThemeEnv.mk false true) rfl⟩

/-! ## Object identity of the favorites map (frame property, C9)

Each mutator of the store executes `new Map(...)` and returns the fresh
map; it never writes through the previously held reference.  To state
that, map *values* live in a heap of cells addressed by allocation order,
and the store state holds a reference into the heap.  `new Map(m)` is an
allocation, `Map.prototype.set`/`delete` on the fresh map before it is
published is a write to the fresh cell. -/

/-- A heap of JS `Map` objects; a reference is an index in allocation order. -/
structure Heap where
  cells : List (List (String × Product))
deriving Repr

/-- Dereference (reading an unallocated reference is junk, never reached). -/
def Heap.read (h : Heap) (r : Nat) : List (String × Product) :=
  h.cells[r]?.getD []

/-- Allocate a fresh map object, returning the new heap and its reference. -/
def Heap.alloc (h : Heap) (v : List (String × Product)) : Heap × Nat :=
  (⟨h.cells ++ [v]⟩, h.cells.length)

/-- Overwrite the contents of an existing map object. -/
def Heap.write (h : Heap) (r : Nat) (v : List (String × Product)) : Heap :=
  ⟨h.cells.set r v⟩

/-- The store state, with the `favorites` field as a heap reference. -/
structure HeapFavoritesState where
  heap : Heap
  favRef : Nat

/-- Operation `addFavorite` against the heap: `const newFavorites = new Map(state.favorites)`
(allocation), `newFavorites.set(product.id, product)` (write to the fresh
cell), publish the fresh reference. -/
def addFavoriteRef (p : Product) (st : HeapFavoritesState) : HeapFavoritesState :=
  let current := st.heap.read st.favRef
  let alloc1 := st.heap.alloc current
  ⟨alloc1.1.write alloc1.2 (JsMap.set current p.id p), alloc1.2⟩

/-- Operation `removeFavorite` against the heap. -/
def removeFavoriteRef (productId : String) (st : HeapFavoritesState) : HeapFavoritesState :=
  let current := st.heap.read st.favRef
  let alloc1 := st.heap.alloc current
  ⟨alloc1.1.write alloc1.2 (JsMap.delete current productId), alloc1.2⟩

/-- Operation `clearFavorites` against the heap: `favorites: new Map()`. -/
def clearFavoritesRef (st : HeapFavoritesState) : HeapFavoritesState :=
  let alloc1 := st.heap.alloc []
  ⟨alloc1.1, alloc1.2⟩

/-- One mutating operation of the favorites store. -/
inductive FavMutation where
  | add (p : Product)
  | remove (productId : String)
  | clear
deriving Repr

def applyFavMutation (m : FavMutation) (st : HeapFavoritesState) : HeapFavoritesState :=
  match m with
  | .add p => addFavoriteRef p st
  | .remove i => removeFavoriteRef i st
  | .clear => clearFavoritesRef st

theorem read_write_fresh (cells : List (List (String × Product)))
    (cur v : List (String × Product)) (r : Nat) (hr : r < cells.length) :
    Heap.read ⟨(cells ++ [cur]).set cells.length v⟩ r = Heap.read ⟨cells⟩ r := by
  unfold Heap.read
  rw [List.getElem?_set_ne (Nat.ne_of_lt hr).symm, List.getElem?_append_left hr]

/-- C9: every mutating operation publishes a freshly allocated map
(its reference is outside the previously allocated heap) and leaves the
contents of every previously allocated map object unchanged, so any map
or array snapshot taken before the mutation is unaffected. -/
theorem favorites_mutations_preserve_snapshots (m : FavMutation)
    (st : HeapFavoritesState) (r : Nat) (hr : r < st.heap.cells.length) :
    (applyFavMutation m st).heap.read r = st.heap.read r ∧
    st.heap.cells.length ≤ (applyFavMutation m st).favRef := by
  obtain ⟨⟨cells⟩, favRef⟩ := st
  cases m with
  | add p =>
    exact ⟨read_write_fresh cells _ _ r hr, Nat.le_refl _⟩
  | remove i =>
    exact ⟨read_write_fresh cells _ _ r hr, Nat.le_refl _⟩
  | clear =>
    refine ⟨?_, Nat.le_refl _⟩
    show Heap.read ⟨cells ++ [[]]⟩ r = Heap.read ⟨cells⟩ r
    unfold Heap.read
    rw [List.getElem?_append_left hr]

/-- Witness for `favorites_mutations_preserve_snapshots`: adding a second
product leaves the previously held one-entry map object intact. -/
theorem favorites_mutations_preserve_snapshots_witness :
    0 < (Heap.mk [[("p1", sampleProduct)]]).cells.length ∧
    ((applyFavMutation (.add sampleProduct2)
        ⟨Heap.mk [[("p1", sampleProduct)]], 0⟩).heap.read 0 =
      (Heap.mk [[("p1", sampleProduct)]]).read 0 ∧
     (Heap.mk [[("p1", sampleProduct)]]).cells.length ≤
      (applyFavMutation (.add sampleProduct2)
        ⟨Heap.mk [[("p1", sampleProduct)]], 0⟩).favRef) :=
  ⟨by decide,
   favorites_mutations_preserve_snapshots (.add sampleProduct2)
     ⟨Heap.mk [[("p1", sampleProduct)]], 0⟩ 0 (by decide)⟩

/-! ## JSON and the favorites persistence codec

`JSON.parse` / `JSON.stringify` are platform builtins; a stored slot is
classified by what they would do with its text.  JSON numbers are
modelled as integers (no verified operation computes with them). -/

/-- A parsed JSON value. -/
inductive Json where
  | null
  | bool (b : Bool)
  | num (n : Int)
  | str (s : String)
  | arr (elems : List Json)
  | obj (fields : List (String × Json))
deriving Repr

/-- A JavaScript value as the favorites `getItem` hands it to the store.
The adapter either returns the parsed JSON unchanged, or mutates it in
place so that `parsed.state.favorites` holds a `Map` built from the
record's entries; no other part of `parsed` is touched, so the result is
exactly the original value plus, in the second case, the map entries. -/
inductive LoadedValue where
  /-- Value `parsed` returned unchanged (no `state.favorites` record to convert). -/
  | plain (parsed : Json)
  /-- Value `parsed` with `parsed.state.favorites` replaced in place by
  `new Map(entries)`. -/
  | rehydrated (parsed : Json) (entries : List (String × Json))
deriving Repr

/-- JS property read on a plain JSON record: `undefined` is `none`. -/
def objGet (fields : List (String × Json)) (k : String) : Option Json :=
  (fields.find? fun f => f.1 == k).map Prod.snd

/-- JavaScript truthiness of a parsed JSON value. -/
def Json.truthy : Json → Bool
  | .null => false
  | .bool b => b
  | .num n => n != 0
  | .str s => s != ""
  | .arr _ => true
  | .obj _ => true

/-- Model of `Object.entries` on a parsed JSON value: the fields of a record, the
index properties of an array or a string, nothing for other primitives. -/
def Json.objectEntries : Json → List (String × Json)
  | .obj fields => fields
  | .arr elems => elems.enum.map fun ie => (toString ie.1, ie.2)
  | .str s => s.toList.enum.map fun ic => (toString ic.1, .str (String.mk [ic.2]))
  | _ => []

/-- An exception raised on the favorites load path. -/
inductive JsError where
  | storageAccess
  | syntaxError
  | typeError
deriving DecidableEq, Repr

/-- One persisted slot, classified together with how `JSON.parse` treats
its text: the storage is unavailable (touching `localStorage` throws),
the slot is absent (`getItem` returns `null`; an empty stored string is
equally falsy), the stored text is not valid JSON (`JSON.parse` throws),
or the text parses to a value. -/
inductive RawSlot where
  | unavailable
  | absent
  | invalid
  | value (parsed : Json)

/-- The map rehydration inside the favorites `getItem`:
`if (parsed.state?.favorites) { parsed.state.favorites = new Map(Object.entries(parsed.state.favorites)); } return parsed;`.
Reading `.state` on a parsed `null` throws; a nullish or missing `state`,
a missing `favorites`, or a falsy `favorites` leave `parsed` untouched. -/
def rehydrateFavorites (parsed : Json) : Except JsError LoadedValue :=
  match parsed with
  | .null => .error .typeError
  | .obj fields =>
    match objGet fields "state" with
    | some (.obj stateFields) =>
      match objGet stateFields "favorites" with
      | some favJ =>
        if favJ.truthy then
          .ok (.rehydrated parsed (JsMap.ofEntries favJ.objectEntries))
        else .ok (.plain parsed)
      | none => .ok (.plain parsed)
    | _ => .ok (.plain parsed)
  | _ => .ok (.plain parsed)

/-- The zustand persist envelope the favorites adapter serializes:
`{ state, version }` with `state.favorites` the live `Map`.  Function
fields of the live state never reach storage (`JSON.stringify` drops
them), so only the data field is modelled. -/
structure PersistState where
  favorites : List (String × Product)
deriving DecidableEq, Repr

structure PersistValue where
  state : PersistState
  version : Int
deriving DecidableEq, Repr

/-- Encoding by `JSON.stringify` of a `Category` (optional `undefined` fields are omitted). -/
def categoryToJson (c : Category) : Json :=
  .obj ([("id", Json.str c.id), ("slug", Json.str c.slug), ("name", Json.str c.name)] ++
    (match c.description with | some d => [("description", Json.str d)] | none => []) ++
    (match c.parentId with | some x => [("parentId", Json.str x)] | none => []) ++
    (match c.image with | some x => [("image", Json.str x)] | none => []) ++
    [("productCount", Json.num c.productCount)])

/-- Encoding by `JSON.stringify` of a `ProductImage`. -/
def productImageToJson (i : ProductImage) : Json :=
  .obj [("id", .str i.id), ("url", .str i.url), ("alt", .str i.alt),
        ("width", .num i.width), ("height", .num i.height)]

/-- Encoding by `JSON.stringify` of a `ProductAttribute`. -/
def productAttributeToJson (a : ProductAttribute) : Json :=
  .obj [("name", .str a.name), ("value", .str a.value)]

/-- Encoding by `JSON.stringify` of a `Product` snapshot. -/
def productToJson (p : Product) : Json :=
  .obj ([("id", Json.str p.id), ("slug", Json.str p.slug), ("name", Json.str p.name),
         ("description", Json.str p.description), ("price", Json.num p.price)] ++
    (match p.originalPrice with | some x => [("originalPrice", Json.num x)] | none => []) ++
    [("currency", Json.str p.currency),
     ("images", Json.arr (p.images.map productImageToJson)),
     ("category", categoryToJson p.category),
     ("brand", Json.str p.brand), ("rating", Json.num p.rating),
     ("reviewCount", Json.num p.reviewCount), ("inStock", Json.bool p.inStock),
     ("attributes", Json.arr (p.attributes.map productAttributeToJson)),
     ("createdAt", Json.str p.createdAt), ("updatedAt", Json.str p.updatedAt)])

namespace FavoritesStorage

/-- The favorites persist adapter's `getItem` (useFavoritesStore.ts):
`localStorage.getItem`, the falsy check, a bare `JSON.parse`, then map
rehydration.  Raised exceptions are explicit in the result type. -/
def getItem (slot : RawSlot) : Except JsError (Option LoadedValue) :=
  match slot with
  | .unavailable => .error .storageAccess
  | .absent => .ok none
  | .invalid => .error .syntaxError
  | .value parsed => (rehydrateFavorites parsed).map some

/-- The favorites persist adapter's `setItem`: the JSON value stored by
`JSON.stringify({ ...value, state: { ...value.state, favorites: Object.fromEntries(value.state.favorites) } })`.
`Object.fromEntries` flattens the map into a record in entry order. -/
def setItem (value : PersistValue) : Json :=
  .obj [("state", .obj [("favorites",
          .obj (value.state.favorites.map fun e => (e.1, productToJson e.2)))]),
        ("version", .num value.version)]

end FavoritesStorage

/-- Function `localStorageService.getJson` (local-storage.service.ts): `get`
returns `null` when storage is unavailable or the slot is absent, and
`safeJsonParse` catches the parse failure — no case raises. -/
def localStorageService.getJson (slot : RawSlot) : Option Json :=
  match slot with
  | .unavailable => none
  | .absent => none
  | .invalid => none
  | .value parsed => some parsed

/-- C1, a code bug: the favorites adapter's `getItem` reads
`localStorage` and calls `JSON.parse` without any try/catch, so a corrupt
stored text raises a SyntaxError and blocked storage raises a storage
access error instead of the load returning `null`; only the absent slot
is handled.  By contrast, the repository's own
`localStorageService.getJson` — which the favorites store does not use —
returns `null` in all three cases, as the spec's load contract demands. -/
theorem favorites_getItem_raises :
    FavoritesStorage.getItem .invalid = .error .syntaxError ∧
    FavoritesStorage.getItem .unavailable = .error .storageAccess ∧
    FavoritesStorage.getItem .absent = .ok none ∧
    localStorageService.getJson .invalid = none ∧
    localStorageService.getJson .unavailable = none ∧
    localStorageService.getJson .absent = none :=
  ⟨rfl, rfl, rfl, rfl, rfl, rfl⟩

/-- A persisted favorites slot holding snapshots for `"p1"` and `"p2"`. -/
def slotP1P2 : Json :=
  .obj [("state", .obj [("favorites",
      .obj [("p1", productToJson sampleProduct), ("p2", productToJson sampleProduct2)])]),
    ("version", .num 0)]

/-- The map entries rehydration reconstructs from `slotP1P2`. -/
def entriesP1P2 : List (String × Json) :=
  [("p1", productToJson sampleProduct), ("p2", productToJson sampleProduct2)]

/-- C4: the codec round-trips.  `setItem` flattens the favorites map
into a plain record in entry order; `getItem` on the stored slot
reconstructs a map with the same entries (the JSON-encoded snapshots) in
the same key order.  In particular rehydrating a slot holding `"p1"` and
`"p2"` yields map entries on which `has "p1"`, `has "p2"` and `size = 2`
hold — exactly what `isFavorite` and `count` read after zustand installs
the map as the store state. -/
theorem favorites_codec_roundtrip (value : PersistValue)
    (h : (value.state.favorites.map Prod.fst).Nodup) :
    FavoritesStorage.getItem (.value (FavoritesStorage.setItem value)) =
      .ok (some (.rehydrated (FavoritesStorage.setItem value)
        (value.state.favorites.map fun e => (e.1, productToJson e.2)))) ∧
    FavoritesStorage.getItem (.value slotP1P2) =
      .ok (some (.rehydrated slotP1P2 entriesP1P2)) ∧
    JsMap.has entriesP1P2 "p1" = true ∧
    JsMap.has entriesP1P2 "p2" = true ∧
    JsMap.size entriesP1P2 = 2 := by
  refine ⟨?_, rfl, rfl, rfl, rfl⟩
  have hkeys : ((value.state.favorites.map fun e => (e.1, productToJson e.2)).map
      Prod.fst).Nodup := by
    rw [List.map_map]
    exact h
  show (rehydrateFavorites (FavoritesStorage.setItem value)).map some = _
  rw [FavoritesStorage.setItem, rehydrateFavorites]
  simp [objGet, Json.truthy, Json.objectEntries, Except.map,
    JsMap.ofEntries_eq_self hkeys]

/-- Witness for `favorites_codec_roundtrip` on a one-entry favorites map. -/
theorem favorites_codec_roundtrip_witness :
    ((PersistValue.mk (PersistState.mk [("p1", sampleProduct)]) 0).state.favorites.map
      Prod.fst).Nodup ∧
    FavoritesStorage.getItem
        (.value (FavoritesStorage.setItem
          (PersistValue.mk (PersistState.mk [("p1", sampleProduct)]) 0))) =
      .ok (some (.rehydrated
        (FavoritesStorage.setItem (PersistValue.mk (PersistState.mk [("p1", sampleProduct)]) 0))
        [("p1", productToJson sampleProduct)])) :=
  ⟨by decide, by
    have := (favorites_codec_roundtrip
      (PersistValue.mk (PersistState.mk [("p1", sampleProduct)]) 0) (by decide)).1
    simpa using this⟩

end Pazaryeri
